import Mathlib

/-!
Verification development for the lightweight-charts-python scripts
(Chart-realtime.py and Chart-static.py).

The two scripts share a date-range CSV loader, a trade-to-marker
classifier, timestamp-window filters over the trade log, and (in the
realtime script) a replay loop.  This file gives a shallow embedding of
those pieces and proves the specified properties about them.

Modelling conventions:
- pandas timestamps are wall-clock integers (milliseconds since epoch);
  a possibly timezone-aware timestamp is a wall-clock value together
  with an optional timezone offset (none means timezone-naive);
- decimal quantities (qty, price, OHLC columns) are rationals;
- a DataFrame is a list of column names plus a list of typed rows;
- the filesystem is a map from calendar-day number to an optional raw
  CSV file; missing file means os.path.exists is false for that day;
- Python float formatting with a fixed number of decimals is embedded
  as exact rational rounding (half to even) followed by decimal
  rendering of the scaled integer.
-/

/-! ## Trade fills and markers -/

/-- One row of fill_historys.csv after the time column is derived:
ts parsed as a naive wall-clock time, plus side, role, qty, price, tag. -/
structure Fill where
  time : ℤ
  side : String
  role : String
  qty : ℚ
  price : ℚ
  tag : String
deriving DecidableEq

/-- The data passed to one chart.marker(...) call. -/
structure Marker where
  time : ℤ
  position : String
  shape : String
  color : String
  text : String
deriving DecidableEq

/-! ## Fixed-decimal formatting (Python format specs .2f and .1f)

The scripts format qty with .2f and price with .1f.  We embed that
formatting over exact rationals: scale by 10^k, round half to even
(the rounding used by Python float formatting), and render the scaled
integer with k digits after the decimal point.  All arithmetic is done
on the numerator and denominator directly so it kernel-reduces. -/

/-- Round q * 10^k to the nearest integer, ties to even. -/
def roundHalfEvenScaled (k : Nat) (q : ℚ) : ℤ :=
  let a : ℤ := q.num * (10 : ℤ) ^ k
  let b : ℤ := (q.den : ℤ)
  let f : ℤ := a / b
  let r : ℤ := a % b
  if 2 * r < b then f
  else if b < 2 * r then f + 1
  else if f % 2 = 0 then f else f + 1

/-- Pad a digit string with leading zeros to width k. -/
def padLeftZeros (k : Nat) (s : String) : String :=
  String.mk (List.replicate (k - s.length) '0') ++ s

/-- Integer part (with sign) and k-digit fractional part of q rendered
with k decimal places. -/
def fmtParts (k : Nat) (q : ℚ) : String × String :=
  let n : ℤ := roundHalfEvenScaled k q
  ((if n < 0 then "-" else "") ++ Nat.repr (n.natAbs / 10 ^ k),
   padLeftZeros k (Nat.repr (n.natAbs % 10 ^ k)))

/-- Python format spec .kf applied to an exact rational value. -/
def fmtFixed (k : Nat) (q : ℚ) : String :=
  (fmtParts k q).1 ++ "." ++ (fmtParts k q).2

/-! ## The marker classifier

Both scripts contain the same nested conditional on role and side,
repeated at every marker call site; classify is that conditional. -/

/-- The nested role/side conditional of the marker-drawing loops,
producing the arguments of the chart.marker call it makes. -/
def classify (trade : Fill) : Marker :=
  if trade.role = "open" then
    if trade.side = "BUY" then
      { time := trade.time, position := "below", shape := "arrow_up",
        color := "#26a69a",
        text := "LONG " ++ fmtFixed 2 trade.qty ++ "@" ++ fmtFixed 1 trade.price }
    else
      { time := trade.time, position := "above", shape := "arrow_down",
        color := "#ef5350",
        text := "SHORT " ++ fmtFixed 2 trade.qty ++ "@" ++ fmtFixed 1 trade.price }
  else
    if trade.side = "SELL" then
      { time := trade.time, position := "above", shape := "circle",
        color := "#4caf50",
        text := "EXIT " ++ trade.tag ++ " " ++ fmtFixed 2 trade.qty ++ "@" ++ fmtFixed 1 trade.price }
    else
      { time := trade.time, position := "below", shape := "circle",
        color := "#ff5252",
        text := "EXIT " ++ trade.tag ++ " " ++ fmtFixed 2 trade.qty ++ "@" ++ fmtFixed 1 trade.price }

/-! ## Timestamp-window filters over the trade log -/

/-- The boolean-mask filter fills[(fills.time >= start_time) and
(fills.time <= end_time)] used by both scripts. -/
def filter_fills (fills : List Fill) (start_time end_time : ℤ) : List Fill :=
  fills.filter (fun f => decide (start_time ≤ f.time) && decide (f.time ≤ end_time))

/-- The already-visible side of the boundary split:
fills[fills.time <= df1_max_time] in Chart-realtime.py. -/
def fills_df1 (fills : List Fill) (boundary : ℤ) : List Fill :=
  fills.filter (fun f => decide (f.time ≤ boundary))

/-- The to-arrive side of the boundary split:
fills[fills.time > df1_max_time] in Chart-realtime.py. -/
def fills_remaining (fills : List Fill) (boundary : ℤ) : List Fill :=
  fills.filter (fun f => decide (boundary < f.time))

/-! ## The replay loop of Chart-realtime.py -/

/-- A possibly timezone-aware pandas timestamp: wall-clock value plus
optional timezone offset; tz = none means timezone-naive. -/
structure PTime where
  wall : ℤ
  tz : Option ℤ
deriving DecidableEq

/-- One cleaned candle row (after column drop and rename). -/
structure CandleRow where
  time : PTime
  openPrice : ℚ
  highPrice : ℚ
  lowPrice : ℚ
  closePrice : ℚ
  volume : ℚ
deriving DecidableEq

/-- The lookup fills_remaining[fills_remaining.time == current_time]
performed at each replay step (exact equality, not a range test). -/
def trades_at_time (fills : List Fill) (t : ℤ) : List Fill :=
  fills.filter (fun f => decide (f.time = t))

/-- Calls the replay loop issues to the external chart object. -/
inductive ChartEvent where
  | update (c : CandleRow)
  | marker (m : Marker)
deriving DecidableEq

/-- One iteration of the replay loop: chart.update(series) followed by
one chart.marker call per trade whose time equals the candle time. -/
def replayStep (fillsRem : List Fill) (c : CandleRow) : List ChartEvent :=
  ChartEvent.update c ::
    (trades_at_time fillsRem c.time.wall).map (fun f => ChartEvent.marker (classify f))

/-- The whole replay loop over the remaining candles, as the sequence
of chart calls it issues. -/
def replayEvents (fillsRem : List Fill) (remaining : List CandleRow) : List ChartEvent :=
  (remaining.map (replayStep fillsRem)).flatten

/-! ## The date-range loader

Both scripts define load_date_range; the realtime variant returns the
list of per-day tables, the static variant concatenates and sorts.
The filesystem is modelled as a map from calendar-day number to the
raw CSV file for that day (none when os.path.exists is false). -/

/-- One raw CSV row before cleaning: the timeframe time column value
(as a wall-clock instant after pd.to_datetime), OHLCV, and the three
housekeeping columns that get dropped. -/
structure RawRow where
  timeVal : ℤ
  openPrice : ℚ
  highPrice : ℚ
  lowPrice : ℚ
  closePrice : ℚ
  volume : ℚ
  volumeCcy : ℚ
  volCcyQuote : ℚ
  rawTimestamp : ℤ
deriving DecidableEq

/-- One raw day file: its column-name list, the timezone attached to
the parsed time column (none when pd.to_datetime yields naive
timestamps), and its rows. -/
structure RawFile where
  cols : List String
  tz : Option ℤ
  rows : List RawRow
deriving DecidableEq

/-- A cleaned per-day table: column names after drop and rename, plus
typed candle rows. -/
structure DayTable where
  cols : List String
  rows : List CandleRow
deriving DecidableEq

/-- The filesystem visible to the loader: day number to optional file. -/
def FileStore : Type := ℤ → Option RawFile

/-- Source-column choice: timestamp_1s if timeframe == 1s else
timestamp_1m. -/
def time_col (timeframe : String) : String :=
  if timeframe = "1s" then "timestamp_1s" else "timestamp_1m"

/-- The three housekeeping columns dropped by both loaders. -/
def housekeepingCols : List String := ["volume_ccy", "volCcyQuote", "timestamp"]

/-- Cleaning of one row: the time column becomes a PTime carrying the
file timezone; if that timezone is present it is stripped
(tz_localize(None)), keeping the wall-clock value. -/
def cleanRow (tz : Option ℤ) (r : RawRow) : CandleRow :=
  let t : PTime := { wall := r.timeVal, tz := tz }
  { time := if t.tz.isSome then { wall := t.wall, tz := none } else t
  , openPrice := r.openPrice, highPrice := r.highPrice, lowPrice := r.lowPrice
  , closePrice := r.closePrice, volume := r.volume }

/-- Cleaning of one day file: drop the three housekeeping columns,
rename the timeframe time column to time, parse and strip timezone. -/
def cleanFile (timeframe : String) (f : RawFile) : DayTable :=
  { cols := (f.cols.filter (fun c => decide (c ∉ housekeepingCols))).map
      (fun c => if c = time_col timeframe then "time" else c)
  , rows := f.rows.map (cleanRow f.tz) }

/-- Number of iterations of the while current_date <= end_date loop. -/
def rangeLen (start_date end_date : ℤ) : Nat := (end_date - start_date + 1).toNat

namespace Realtime

/-- The day loop of Chart-realtime.py load_date_range: walk the days,
append the cleaned table when the file exists, otherwise record a
warning for that day.  Returns (tables, warned days). -/
def loadDays (fs : FileStore) (timeframe : String) : ℤ → Nat → List DayTable × List ℤ
  | _, 0 => ([], [])
  | d, Nat.succ n =>
    match fs d with
    | some f =>
      let rest := loadDays fs timeframe (d + 1) n
      (cleanFile timeframe f :: rest.1, rest.2)
    | none =>
      let rest := loadDays fs timeframe (d + 1) n
      (rest.1, d :: rest.2)

/-- Chart-realtime.py load_date_range: per-day tables, or the
no-data error when no day produced a table. -/
def load_date_range (fs : FileStore) (timeframe : String) (start_date end_date : ℤ) :
    Except String (List DayTable × List ℤ) :=
  let r := loadDays fs timeframe start_date (rangeLen start_date end_date)
  if r.1.isEmpty then Except.error "No data files found in the specified range"
  else Except.ok r

end Realtime

/-- pd.concat over the per-day tables (same column layout per day). -/
def concatTables (ts : List DayTable) : DayTable :=
  { cols := match ts with
      | [] => []
      | t :: _ => t.cols
  , rows := (ts.map DayTable.rows).flatten }

/-- sort_values over the time column, modelled as a stable sort. -/
def sortTable (t : DayTable) : DayTable :=
  { cols := t.cols
  , rows := t.rows.mergeSort (fun a b => decide (a.time.wall ≤ b.time.wall)) }

namespace Static

/-- The day loop of Chart-static.py load_date_range (same walk as the
realtime variant). -/
def loadDays (fs : FileStore) (timeframe : String) : ℤ → Nat → List DayTable × List ℤ
  | _, 0 => ([], [])
  | d, Nat.succ n =>
    match fs d with
    | some f =>
      let rest := loadDays fs timeframe (d + 1) n
      (cleanFile timeframe f :: rest.1, rest.2)
    | none =>
      let rest := loadDays fs timeframe (d + 1) n
      (rest.1, d :: rest.2)

/-- Chart-static.py load_date_range: the concatenation of the per-day
tables sorted by time, or the no-data error. -/
def load_date_range (fs : FileStore) (timeframe : String) (start_date end_date : ℤ) :
    Except String (DayTable × List ℤ) :=
  let r := loadDays fs timeframe start_date (rangeLen start_date end_date)
  if r.1.isEmpty then Except.error "No data files found in the specified range"
  else Except.ok (sortTable (concatTables r.1), r.2)

end Static

/-! ## Well-formed candle day files

The data-model invariant for a candle file of day d: rows are strictly
increasing in time (one row per period) and all times fall inside
calendar day d.  Times are epoch milliseconds, so a day is 86400000
wide.  The predicate is Bool-valued so witnesses can evaluate it. -/

/-- Calendar-day number of an epoch-millisecond instant. -/
def dayOfTime (t : ℤ) : ℤ := t / 86400000

/-- Bool test that the raw rows are strictly increasing in time. -/
def timesSortedB : List RawRow → Bool
  | [] => true
  | [_] => true
  | a :: b :: l => decide (a.timeVal < b.timeVal) && timesSortedB (b :: l)

/-- Bool test that a raw file is a well-formed candle file of day d. -/
def wellFormedDayFile (d : ℤ) (f : RawFile) : Bool :=
  timesSortedB f.rows && f.rows.all (fun r => decide (dayOfTime r.timeVal = d))

instance : IsTrans CandleRow (fun a b : CandleRow => a.time.wall < b.time.wall) :=
  ⟨fun _ _ _ h1 h2 => lt_trans h1 h2⟩


/-! ## Concrete fixtures for witnesses -/

/-- A well-formed day-0 candle file with two rows. -/
def fw0 : RawFile :=
  { cols := ["open", "high", "low", "close", "volume", "volume_ccy", "volCcyQuote",
             "timestamp", "timestamp_1m"]
  , tz := none
  , rows :=
      [ { timeVal := 0, openPrice := 1, highPrice := 2, lowPrice := 1, closePrice := 2,
          volume := 3, volumeCcy := 4, volCcyQuote := 5, rawTimestamp := 0 },
        { timeVal := 60000, openPrice := 2, highPrice := 3, lowPrice := 2, closePrice := 3,
          volume := 3, volumeCcy := 4, volCcyQuote := 5, rawTimestamp := 60000 } ] }

/-- A well-formed day-1 candle file with two rows. -/
def fw1 : RawFile :=
  { cols := ["open", "high", "low", "close", "volume", "volume_ccy", "volCcyQuote",
             "timestamp", "timestamp_1m"]
  , tz := some 0
  , rows :=
      [ { timeVal := 86400000, openPrice := 3, highPrice := 4, lowPrice := 3, closePrice := 4,
          volume := 3, volumeCcy := 4, volCcyQuote := 5, rawTimestamp := 86400000 },
        { timeVal := 86460000, openPrice := 4, highPrice := 5, lowPrice := 4, closePrice := 5,
          volume := 3, volumeCcy := 4, volCcyQuote := 5, rawTimestamp := 86460000 } ] }

/-- A filesystem holding files for days 0 and 1 only. -/
def fsTwoDays : FileStore := fun d => if d = 0 then some fw0 else if d = 1 then some fw1 else none

/-- A filesystem holding files for days 0 and 2 only (day 1 missing). -/
def fsGap : FileStore := fun d => if d = 0 then some fw0 else if d = 2 then some fw1 else none

/-- A concrete fill at time 5 used by replay witnesses. -/
def fillA : Fill := { time := 5, side := "BUY", role := "open", qty := 1, price := 100, tag := "a" }

/-- A concrete candle at naive time 5 used by replay witnesses. -/
def candleA : CandleRow :=
  { time := { wall := 5, tz := none }, openPrice := 1, highPrice := 2, lowPrice := 1,
    closePrice := 2, volume := 3 }

/-! ## Helper lemmas on formatting -/

theorem padLeftZeros_length (k : Nat) (s : String) (h : s.length ≤ k) :
    (padLeftZeros k s).length = k := by
  have hmk : (String.mk (List.replicate (k - s.length) '0')).length = k - s.length := by
    show (List.replicate (k - s.length) '0').length = k - s.length
    exact List.length_replicate _ _
  simp only [padLeftZeros, String.length_append, hmk]
  omega

theorem repr_len_le_two : ∀ m, m < 100 → (Nat.repr m).length ≤ 2 := by decide

theorem repr_len_le_one : ∀ m, m < 10 → (Nat.repr m).length ≤ 1 := by decide

theorem fmtFixed_two_decimals (q : ℚ) :
    ∃ w f, fmtFixed 2 q = w ++ "." ++ f ∧ f.length = 2 := by
  refine ⟨(fmtParts 2 q).1, (fmtParts 2 q).2, rfl, ?_⟩
  apply padLeftZeros_length
  apply repr_len_le_two
  exact Nat.mod_lt _ (by norm_num)

theorem fmtFixed_one_decimal (q : ℚ) :
    ∃ w f, fmtFixed 1 q = w ++ "." ++ f ∧ f.length = 1 := by
  refine ⟨(fmtParts 1 q).1, (fmtParts 1 q).2, rfl, ?_⟩
  apply padLeftZeros_length
  apply repr_len_le_one
  exact Nat.mod_lt _ (by norm_num)

theorem timesSortedB_iff : ∀ l : List RawRow,
    timesSortedB l = true ↔ List.Chain' (fun a b : RawRow => a.timeVal < b.timeVal) l
  | [] => by simp [timesSortedB]
  | [a] => by simp [timesSortedB]
  | a :: b :: l => by
    rw [timesSortedB, Bool.and_eq_true, decide_eq_true_eq, timesSortedB_iff (b :: l),
      List.chain'_cons]

theorem wellFormedDayFile_iff (d : ℤ) (f : RawFile) :
    wellFormedDayFile d f = true ↔
      (List.Chain' (fun a b : RawRow => a.timeVal < b.timeVal) f.rows ∧
        ∀ r ∈ f.rows, dayOfTime r.timeVal = d) := by
  rw [wellFormedDayFile, Bool.and_eq_true, timesSortedB_iff, List.all_eq_true]
  simp

theorem dayOfTime_lt {a b : ℤ} (h : dayOfTime a < dayOfTime b) : a < b := by
  by_contra hc
  push_neg at hc
  have := Int.ediv_le_ediv (by norm_num : (0:ℤ) < 86400000) hc
  unfold dayOfTime at h
  omega

/-! ## Cleaning preserves rows and scrubs columns and timezones -/

theorem cleanRow_wall (tz : Option ℤ) (r : RawRow) :
    (cleanRow tz r).time.wall = r.timeVal := by
  cases tz <;> rfl

theorem cleanRow_tz (tz : Option ℤ) (r : RawRow) :
    (cleanRow tz r).time.tz = none := by
  cases tz <;> rfl

theorem cleanFile_rows_length (timeframe : String) (f : RawFile) :
    (cleanFile timeframe f).rows.length = f.rows.length := by
  simp [cleanFile]

theorem cleanFile_rows_tz (timeframe : String) (f : RawFile) :
    ∀ r ∈ (cleanFile timeframe f).rows, r.time.tz = none := by
  intro r hr
  rcases List.mem_map.mp hr with ⟨r0, _, rfl⟩
  exact cleanRow_tz f.tz r0

theorem cleanFile_no_housekeeping (timeframe : String) (f : RawFile) :
    ∀ c ∈ housekeepingCols, c ∉ (cleanFile timeframe f).cols := by
  intro c hc hmem
  rcases List.mem_map.mp hmem with ⟨c0, hc0, heq⟩
  rcases List.mem_filter.mp hc0 with ⟨_, hkeep⟩
  by_cases ht : c0 = time_col timeframe
  · rw [ht, if_pos rfl] at heq
    subst heq
    revert hc
    decide
  · rw [if_neg ht] at heq
    subst heq
    exact (decide_eq_true_eq.mp hkeep) hc

theorem cleanFile_rows_sorted (timeframe : String) (f : RawFile)
    (h : List.Chain' (fun a b : RawRow => a.timeVal < b.timeVal) f.rows) :
    List.Chain' (fun a b : CandleRow => a.time.wall < b.time.wall)
      (cleanFile timeframe f).rows := by
  unfold cleanFile
  simp only
  rw [List.chain'_map]
  exact h.imp (fun a b hab => by rwa [cleanRow_wall, cleanRow_wall])

theorem cleanFile_rows_day (timeframe : String) (f : RawFile) (d : ℤ)
    (h : ∀ r ∈ f.rows, dayOfTime r.timeVal = d) :
    ∀ r ∈ (cleanFile timeframe f).rows, dayOfTime r.time.wall = d := by
  intro r hr
  rcases List.mem_map.mp hr with ⟨r0, hr0, rfl⟩
  rw [cleanRow_wall]
  exact h r0 hr0

/-! ## The day loop under full data -/

theorem loadDays_all_present (fs : FileStore) (timeframe : String) (M : Nat) :
    ∀ n : Nat, ∀ d : ℤ,
      (∀ i : Nat, i < n → ∃ f, fs (d + (i : ℤ)) = some f ∧ f.rows.length = M ∧
          wellFormedDayFile (d + (i : ℤ)) f = true) →
      ∃ tables,
        Realtime.loadDays fs timeframe d n = (tables, []) ∧
        tables.length = n ∧
        ((tables.map DayTable.rows).flatten).length = n * M ∧
        List.Chain' (fun a b : CandleRow => a.time.wall < b.time.wall)
          ((tables.map DayTable.rows).flatten) ∧
        (∀ r ∈ (tables.map DayTable.rows).flatten, d ≤ dayOfTime r.time.wall) := by
  intro n
  induction n with
  | zero =>
    intro d _
    refine ⟨[], rfl, rfl, by simp, List.chain'_nil, ?_⟩
    intro r hr
    simp at hr
  | succ n ih =>
    intro d h
    obtain ⟨f, hf, hlen, hwf⟩ := by
      have h0 := h 0 (Nat.succ_pos n)
      rwa [show d + ((0 : Nat) : ℤ) = d by push_cast; ring] at h0
    obtain ⟨hsorted, hday⟩ := (wellFormedDayFile_iff d f).mp hwf
    obtain ⟨tables, heq, htlen, hflen, hchain, hlb⟩ := ih (d + 1) (fun i hi => by
      have hi1 := h (i + 1) (Nat.succ_lt_succ hi)
      rwa [show d + ((i + 1 : Nat) : ℤ) = (d + 1) + (i : ℤ) by push_cast; ring] at hi1)
    refine ⟨cleanFile timeframe f :: tables, ?_, ?_, ?_, ?_, ?_⟩
    · show Realtime.loadDays fs timeframe d (n + 1) = _
      rw [Realtime.loadDays, hf, heq]
    · simp [htlen]
    · simp only [List.map_cons, List.flatten_cons, List.length_append, hflen,
        cleanFile_rows_length, hlen]
      ring
    · rw [List.map_cons, List.flatten_cons, List.chain'_append]
      refine ⟨cleanFile_rows_sorted timeframe f hsorted, hchain, ?_⟩
      intro x hx y hy
      have hxmem : x ∈ (cleanFile timeframe f).rows := by
        rcases List.mem_getLast?_eq_getLast hx with ⟨hne, rfl⟩
        exact List.getLast_mem hne
      have hymem : y ∈ (tables.map DayTable.rows).flatten := List.mem_of_mem_head? hy
      have hxd : dayOfTime x.time.wall = d :=
        cleanFile_rows_day timeframe f d hday x hxmem
      have hyd : d + 1 ≤ dayOfTime y.time.wall := hlb y hymem
      exact dayOfTime_lt (by omega)
    · intro r hr
      rw [List.map_cons, List.flatten_cons, List.mem_append] at hr
      rcases hr with hr | hr
      · rw [cleanFile_rows_day timeframe f d hday r hr]
      · have := hlb r hr
        omega

/-- C2: over a range of N consecutive days each backed by a
well-formed M-row candle file, load_date_range succeeds with N per-day
tables and no warnings; their concatenation has exactly N*M rows and
is sorted ascending by time, the housekeeping columns are absent from
every table, and every time value is timezone-naive. -/

theorem loadDays_tables_shape (fs : FileStore) (timeframe : String) :
    ∀ n : Nat, ∀ d : ℤ, ∀ t ∈ (Realtime.loadDays fs timeframe d n).1,
      ∃ f, t = cleanFile timeframe f := by
  intro n
  induction n with
  | zero =>
    intro d t ht
    simp [Realtime.loadDays] at ht
  | succ n ihn =>
    intro d t ht
    rw [Realtime.loadDays] at ht
    cases hfd : fs d with
    | some f =>
      rw [hfd] at ht
      simp only [List.mem_cons] at ht
      rcases ht with rfl | ht
      · exact ⟨f, rfl⟩
      · exact ihn (d + 1) t ht
    | none =>
      rw [hfd] at ht
      exact ihn (d + 1) t ht

/-- C2: over a range of N consecutive days each backed by a
well-formed M-row candle file, load_date_range succeeds with N per-day
tables and no warnings; their concatenation has exactly N*M rows and
is sorted ascending by time, the housekeeping columns are absent from
every table, and every time value is timezone-naive. -/
theorem load_range_full_days (fs : FileStore) (timeframe : String)
    (start_date end_date : ℤ) (M : Nat)
    (hse : start_date ≤ end_date)
    (hfiles : ∀ d : ℤ, start_date ≤ d → d ≤ end_date →
      ∃ f, fs d = some f ∧ f.rows.length = M ∧ wellFormedDayFile d f = true) :
    ∃ tables,
      Realtime.load_date_range fs timeframe start_date end_date = Except.ok (tables, []) ∧
      tables.length = rangeLen start_date end_date ∧
      ((tables.map DayTable.rows).flatten).length = rangeLen start_date end_date * M ∧
      List.Pairwise (fun a b : CandleRow => a.time.wall ≤ b.time.wall)
        ((tables.map DayTable.rows).flatten) ∧
      (∀ t ∈ tables, ∀ c ∈ housekeepingCols, c ∉ t.cols) ∧
      (∀ t ∈ tables, ∀ r ∈ t.rows, r.time.tz = none) := by
  have hn : ((rangeLen start_date end_date : Nat) : ℤ) = end_date - start_date + 1 := by
    unfold rangeLen
    rw [Int.toNat_of_nonneg (by omega)]
  obtain ⟨tables, heq, htlen, hflen, hchain, _⟩ :=
    loadDays_all_present fs timeframe M (rangeLen start_date end_date) start_date
      (fun i hi => by
        have hlti : ((i : ℕ) : ℤ) < end_date - start_date + 1 := by
          rw [← hn]
          exact_mod_cast hi
        exact hfiles (start_date + (i : ℤ)) (by omega) (by omega))
  have hshape : ∀ t ∈ tables, ∃ f, t = cleanFile timeframe f := by
    intro t ht
    refine loadDays_tables_shape fs timeframe (rangeLen start_date end_date) start_date t ?_
    rw [heq]
    exact ht
  have hpos : 0 < rangeLen start_date end_date := by omega
  have hne : tables ≠ [] := by
    intro hnil
    rw [hnil] at htlen
    simp at htlen
    omega
  refine ⟨tables, ?_, htlen, hflen, ?_, ?_, ?_⟩
  · unfold Realtime.load_date_range
    rw [heq]
    rw [if_neg (by simpa using hne)]
  · exact (List.chain'_iff_pairwise.mp hchain).imp (fun h => le_of_lt h)
  · intro t ht c hc
    obtain ⟨f, rfl⟩ := hshape t ht
    exact cleanFile_no_housekeeping timeframe f c hc
  · intro t ht r hr
    obtain ⟨f, rfl⟩ := hshape t ht
    exact cleanFile_rows_tz timeframe f r hr

/-! ## Empty ranges and the no-data error -/

theorem loadDays_nil_iff (fs : FileStore) (timeframe : String) :
    ∀ n : Nat, ∀ d : ℤ,
      ((Realtime.loadDays fs timeframe d n).1 = [] ↔
        ∀ i : Nat, i < n → fs (d + (i : ℤ)) = none) := by
  intro n
  induction n with
  | zero =>
    intro d
    simp [Realtime.loadDays]
  | succ n ih =>
    intro d
    cases hfd : fs d with
    | some f =>
      rw [Realtime.loadDays, hfd]
      simp only
      constructor
      · intro h
        cases h
      · intro h
        have h0 := h 0 (Nat.succ_pos n)
        rw [show d + ((0 : Nat) : ℤ) = d by push_cast; ring, hfd] at h0
        cases h0
    | none =>
      rw [Realtime.loadDays, hfd]
      simp only
      rw [ih (d + 1)]
      constructor
      · intro h i hi
        cases i with
        | zero =>
          rw [show d + ((0 : Nat) : ℤ) = d by push_cast; ring]
          exact hfd
        | succ j =>
          have := h j (by omega)
          rwa [show (d + 1) + ((j : Nat) : ℤ) = d + ((j + 1 : Nat) : ℤ) by push_cast; ring] at this
      · intro h i hi
        have := h (i + 1) (by omega)
        rwa [show d + ((i + 1 : Nat) : ℤ) = (d + 1) + ((i : Nat) : ℤ) by push_cast; ring] at this

theorem loadDays_range_nil_iff (fs : FileStore) (timeframe : String)
    (start_date end_date : ℤ) :
    ((Realtime.loadDays fs timeframe start_date (rangeLen start_date end_date)).1 = [] ↔
      ∀ d : ℤ, start_date ≤ d → d ≤ end_date → fs d = none) := by
  rw [loadDays_nil_iff]
  constructor
  · intro h d h1 h2
    have hi : (d - start_date).toNat < rangeLen start_date end_date := by
      unfold rangeLen
      omega
    have := h (d - start_date).toNat hi
    rwa [show start_date + (((d - start_date).toNat : ℕ) : ℤ) = d by omega] at this
  · intro h i hi
    have hibound : ((i : ℕ) : ℤ) ≤ end_date - start_date := by
      unfold rangeLen at hi
      omega
    exact h _ (by omega) (by omega)

theorem static_loadDays_eq (fs : FileStore) (timeframe : String) :
    ∀ n : Nat, ∀ d : ℤ, Static.loadDays fs timeframe d n = Realtime.loadDays fs timeframe d n := by
  intro n
  induction n with
  | zero => intro d; rfl
  | succ n ih =>
    intro d
    rw [Static.loadDays, Realtime.loadDays, ih (d + 1)]

/-- C3: both variants of load_date_range fail with the no-data error
exactly when no calendar day in the inclusive range has a candle file,
and in that case no table is returned. -/
theorem load_range_error_iff_empty (fs : FileStore) (timeframe : String)
    (start_date end_date : ℤ) :
    ((∃ msg, Realtime.load_date_range fs timeframe start_date end_date = Except.error msg) ↔
      ∀ d : ℤ, start_date ≤ d → d ≤ end_date → fs d = none) ∧
    ((∃ msg, Static.load_date_range fs timeframe start_date end_date = Except.error msg) ↔
      ∀ d : ℤ, start_date ≤ d → d ≤ end_date → fs d = none) := by
  have key := loadDays_range_nil_iff fs timeframe start_date end_date
  constructor
  · constructor
    · rintro ⟨msg, hmsg⟩
      unfold Realtime.load_date_range at hmsg
      by_cases hnil : (Realtime.loadDays fs timeframe start_date
          (rangeLen start_date end_date)).1 = []
      · exact key.mp hnil
      · rw [if_neg (by simpa [List.isEmpty_iff] using hnil)] at hmsg
        cases hmsg
    · intro h
      refine ⟨"No data files found in the specified range", ?_⟩
      unfold Realtime.load_date_range
      rw [if_pos (by simpa [List.isEmpty_iff] using key.mpr h)]
  · constructor
    · rintro ⟨msg, hmsg⟩
      unfold Static.load_date_range at hmsg
      rw [static_loadDays_eq] at hmsg
      by_cases hnil : (Realtime.loadDays fs timeframe start_date
          (rangeLen start_date end_date)).1 = []
      · exact key.mp hnil
      · rw [if_neg (by simpa [List.isEmpty_iff] using hnil)] at hmsg
        cases hmsg
    · intro h
      refine ⟨"No data files found in the specified range", ?_⟩
      unfold Static.load_date_range
      rw [static_loadDays_eq]
      rw [if_pos (by simpa [List.isEmpty_iff] using key.mpr h)]

/-- C3 witness: a three-day range with no files at all makes both
loaders fail with the no-data error. -/
theorem load_range_error_iff_empty_witness :
    (∃ msg, Realtime.load_date_range (fun _ => none) "1m" 0 2 = Except.error msg) ∧
    (∃ msg, Static.load_date_range (fun _ => none) "1m" 0 2 = Except.error msg) :=
  ⟨(load_range_error_iff_empty (fun _ => none) "1m" 0 2).1.mpr (fun _ _ _ => rfl),
   (load_range_error_iff_empty (fun _ => none) "1m" 0 2).2.mpr (fun _ _ _ => rfl)⟩

/-- C4: the static loader equals the realtime loader followed by
concatenating the per-day tables in order and sorting by time (and it
propagates the same warnings and the same error). -/
theorem static_load_refines_realtime (fs : FileStore) (timeframe : String)
    (start_date end_date : ℤ) :
    Static.load_date_range fs timeframe start_date end_date =
      Except.map (fun r => (sortTable (concatTables r.1), r.2))
        (Realtime.load_date_range fs timeframe start_date end_date) := by
  unfold Static.load_date_range Realtime.load_date_range
  rw [static_loadDays_eq]
  by_cases hnil : (Realtime.loadDays fs timeframe start_date
      (rangeLen start_date end_date)).1.isEmpty = true
  · rw [if_pos hnil, if_pos hnil]
    rfl
  · rw [if_neg hnil, if_neg hnil]
    rfl

/-- C5: over a three-day range whose middle file is missing,
load_date_range returns exactly the two tables of days 1 and 3 in day
order, records a warning for day 2, and raises no error. -/
theorem load_range_skips_missing_day (fs : FileStore) (timeframe : String) (d : ℤ)
    (f1 f3 : RawFile)
    (h1 : fs d = some f1) (h2 : fs (d + 1) = none) (h3 : fs (d + 2) = some f3) :
    Realtime.load_date_range fs timeframe d (d + 2) =
      Except.ok ([cleanFile timeframe f1, cleanFile timeframe f3], [d + 1]) := by
  have hr : rangeLen d (d + 2) = 3 := by
    unfold rangeLen
    omega
  have h3b : fs (d + 1 + 1) = some f3 := by
    rwa [show d + 1 + 1 = d + 2 by ring]
  unfold Realtime.load_date_range
  rw [hr]
  rw [show (3 : Nat) = Nat.succ (Nat.succ (Nat.succ 0)) from rfl]
  rw [Realtime.loadDays, h1, Realtime.loadDays, h2, Realtime.loadDays, h3b]
  rfl

/-! ## Claims about the classifier -/

/-- C1: over the declared domain role in {open, close}, side in
{BUY, SELL}, classify produces exactly the decision-table row: (open,
BUY) below/arrow_up/#26a69a/LONG, (open, SELL) above/arrow_down/
#ef5350/SHORT, (close, SELL) above/circle/#4caf50/EXIT tag, (close,
BUY) below/circle/#ff5252/EXIT tag; and the label text is the prefix,
a space, qty rendered with exactly 2 decimal places, an @ sign, and
price rendered with exactly 1 decimal place. -/
theorem classify_decision_table (t : Fill)
    (hrole : t.role = "open" ∨ t.role = "close")
    (hside : t.side = "BUY" ∨ t.side = "SELL") :
    (t.role = "open" → t.side = "BUY" →
      classify t = { time := t.time, position := "below", shape := "arrow_up",
                     color := "#26a69a",
                     text := "LONG " ++ fmtFixed 2 t.qty ++ "@" ++ fmtFixed 1 t.price }) ∧
    (t.role = "open" → t.side = "SELL" →
      classify t = { time := t.time, position := "above", shape := "arrow_down",
                     color := "#ef5350",
                     text := "SHORT " ++ fmtFixed 2 t.qty ++ "@" ++ fmtFixed 1 t.price }) ∧
    (t.role = "close" → t.side = "SELL" →
      classify t = { time := t.time, position := "above", shape := "circle",
                     color := "#4caf50",
                     text := "EXIT " ++ t.tag ++ " " ++ fmtFixed 2 t.qty ++ "@" ++ fmtFixed 1 t.price }) ∧
    (t.role = "close" → t.side = "BUY" →
      classify t = { time := t.time, position := "below", shape := "circle",
                     color := "#ff5252",
                     text := "EXIT " ++ t.tag ++ " " ++ fmtFixed 2 t.qty ++ "@" ++ fmtFixed 1 t.price }) ∧
    (∃ w f, fmtFixed 2 t.qty = w ++ "." ++ f ∧ f.length = 2) ∧
    (∃ w f, fmtFixed 1 t.price = w ++ "." ++ f ∧ f.length = 1) := by
  refine ⟨?_, ?_, ?_, ?_, fmtFixed_two_decimals t.qty, fmtFixed_one_decimal t.price⟩
  · intro h1 h2; simp [classify, h1, h2]
  · intro h1 h2; simp [classify, h1, h2]
  · intro h1 h2; simp [classify, h1, h2]
  · intro h1 h2; simp [classify, h1, h2]

/-- C1 witness: role open, side BUY, qty 1.0, price 100.0 yields the
LONG row with text LONG 1.00@100.0. -/
theorem classify_decision_table_witness :
    classify { time := 0, side := "BUY", role := "open", qty := 1, price := 100, tag := "t1" } =
      { time := 0, position := "below", shape := "arrow_up", color := "#26a69a",
        text := "LONG 1.00@100.0" } := by
  have h := (classify_decision_table
      { time := 0, side := "BUY", role := "open", qty := 1, price := 100, tag := "t1" }
      (Or.inl rfl) (Or.inl rfl)).1 rfl rfl
  rw [h]
  decide

/-- C10: classify is total over all string-valued role/side pairs: any
role other than open falls into the close-role branch, and within each
role the side not tested first falls into the else branch and gets the
other side styling. -/
theorem classify_total_fallthrough (t : Fill) :
    (t.role = "open" → t.side ≠ "BUY" →
      classify t = { time := t.time, position := "above", shape := "arrow_down",
                     color := "#ef5350",
                     text := "SHORT " ++ fmtFixed 2 t.qty ++ "@" ++ fmtFixed 1 t.price }) ∧
    (t.role ≠ "open" → t.side = "SELL" →
      classify t = { time := t.time, position := "above", shape := "circle",
                     color := "#4caf50",
                     text := "EXIT " ++ t.tag ++ " " ++ fmtFixed 2 t.qty ++ "@" ++ fmtFixed 1 t.price }) ∧
    (t.role ≠ "open" → t.side ≠ "SELL" →
      classify t = { time := t.time, position := "below", shape := "circle",
                     color := "#ff5252",
                     text := "EXIT " ++ t.tag ++ " " ++ fmtFixed 2 t.qty ++ "@" ++ fmtFixed 1 t.price }) := by
  refine ⟨?_, ?_, ?_⟩
  · intro h1 h2; simp [classify, h1, h2]
  · intro h1 h2; simp [classify, h1, h2]
  · intro h1 h2; simp [classify, h1, h2]

/-- C10 witness: a fill with role and side outside the declared domain
still gets a marker, via the double else branch. -/
theorem classify_total_fallthrough_witness :
    classify { time := 7, side := "HOLD", role := "reduce", qty := 1, price := 3, tag := "x" } =
      { time := 7, position := "below", shape := "circle", color := "#ff5252",
        text := "EXIT " ++ "x" ++ " " ++ fmtFixed 2 1 ++ "@" ++ fmtFixed 1 3 } :=
  (classify_total_fallthrough
      { time := 7, side := "HOLD", role := "reduce", qty := 1, price := 3, tag := "x" }).2.2
    (by decide) (by decide)

/-! ## Claims about the trade-window filter -/

/-- C6: the trade-window filter returns exactly the subsequence of
fills whose timestamp lies in the inclusive window: it is a sublist of
the input, membership is characterized by the two inclusive bound
tests, every copy of an in-window fill is retained and every copy of an
out-of-window fill is removed, and boundary-equal timestamps are kept. -/
theorem filter_fills_spec (fills : List Fill) (t0 t1 : ℤ) :
    (filter_fills fills t0 t1).Sublist fills ∧
    (∀ f, f ∈ filter_fills fills t0 t1 ↔ f ∈ fills ∧ t0 ≤ f.time ∧ f.time ≤ t1) ∧
    (∀ f, (filter_fills fills t0 t1).count f =
      if t0 ≤ f.time ∧ f.time ≤ t1 then fills.count f else 0) ∧
    (∀ f ∈ fills, f.time = t0 → t0 ≤ t1 → f ∈ filter_fills fills t0 t1) ∧
    (∀ f ∈ fills, f.time = t1 → t0 ≤ t1 → f ∈ filter_fills fills t0 t1) := by
  have hmem : ∀ f, f ∈ filter_fills fills t0 t1 ↔ f ∈ fills ∧ t0 ≤ f.time ∧ f.time ≤ t1 := by
    intro f
    simp [filter_fills, List.mem_filter]
  refine ⟨List.filter_sublist _, hmem, ?_, ?_, ?_⟩
  · intro f
    by_cases h : t0 ≤ f.time ∧ f.time ≤ t1
    · rw [if_pos h]
      exact List.count_filter (by simpa using h)
    · rw [if_neg h]
      refine List.count_eq_zero.mpr ?_
      intro hf
      exact h ((hmem f).mp hf).2
  · intro f hf ht _
    exact (hmem f).mpr ⟨hf, by omega, by omega⟩
  · intro f hf ht h01
    exact (hmem f).mpr ⟨hf, by omega, by omega⟩

/-- C6 witness: a fill at exactly the start bound is retained. -/
theorem filter_fills_spec_witness :
    ({ time := 5, side := "BUY", role := "open", qty := 1, price := 2, tag := "a" } : Fill) ∈
      filter_fills [{ time := 5, side := "BUY", role := "open", qty := 1, price := 2, tag := "a" }] 5 7 :=
  (filter_fills_spec [{ time := 5, side := "BUY", role := "open", qty := 1, price := 2, tag := "a" }] 5 7).2.2.2.1
    _ (List.mem_singleton.mpr rfl) rfl (by decide)

/-- C7: filtering an already-filtered list again with the same bounds
returns the identical list. -/
theorem filter_fills_idempotent (fills : List Fill) (t0 t1 : ℤ) :
    filter_fills (filter_fills fills t0 t1) t0 t1 = filter_fills fills t0 t1 := by
  unfold filter_fills
  rw [List.filter_filter]
  apply List.filter_congr
  intro f _
  cases h : (decide (t0 ≤ f.time) && decide (f.time ≤ t1)) <;> simp [h]

/-- C7 witness: idempotence at a concrete list and concrete bounds. -/
theorem filter_fills_idempotent_witness :
    filter_fills (filter_fills
        [{ time := 5, side := "BUY", role := "open", qty := 1, price := 2, tag := "a" },
         { time := 9, side := "SELL", role := "close", qty := 1, price := 2, tag := "b" }] 5 7) 5 7 =
      filter_fills
        [{ time := 5, side := "BUY", role := "open", qty := 1, price := 2, tag := "a" },
         { time := 9, side := "SELL", role := "close", qty := 1, price := 2, tag := "b" }] 5 7 :=
  filter_fills_idempotent _ 5 7

/-! ## Claims about the boundary split and the replay loop -/

theorem fills_split_length (fills : List Fill) (b : ℤ) :
    (fills_df1 fills b).length + (fills_remaining fills b).length = fills.length := by
  induction fills with
  | nil => rfl
  | cons f fs ih =>
    simp only [fills_df1, fills_remaining, List.filter_cons] at ih ⊢
    by_cases h : f.time ≤ b
    · have h2 : ¬ b < f.time := by omega
      rw [if_pos (by simpa using h), if_neg (by simpa using h2)]
      simp only [List.length_cons]
      omega
    · have h2 : b < f.time := by omega
      rw [if_neg (by simpa using h), if_pos (by simpa using h2)]
      simp only [List.length_cons]
      omega

/-- C9: the boundary split at the last candle of the initial table
partitions the filtered fills: the two sides are disjoint, their union
is the whole list, multiplicities add up, and a fill exactly at the
boundary goes to the already-visible side only. -/
theorem boundary_split_partition (fills : List Fill) (b : ℤ) :
    (∀ f, ¬(f ∈ fills_df1 fills b ∧ f ∈ fills_remaining fills b)) ∧
    (∀ f, f ∈ fills ↔ (f ∈ fills_df1 fills b ∨ f ∈ fills_remaining fills b)) ∧
    (fills_df1 fills b).length + (fills_remaining fills b).length = fills.length ∧
    (∀ f, f.time = b → f ∈ fills → f ∈ fills_df1 fills b ∧ f ∉ fills_remaining fills b) := by
  have hmem1 : ∀ f, f ∈ fills_df1 fills b ↔ f ∈ fills ∧ f.time ≤ b := by
    intro f; simp [fills_df1, List.mem_filter]
  have hmem2 : ∀ f, f ∈ fills_remaining fills b ↔ f ∈ fills ∧ b < f.time := by
    intro f; simp [fills_remaining, List.mem_filter]
  refine ⟨?_, ?_, ?_, ?_⟩
  · intro f ⟨h1, h2⟩
    have := ((hmem1 f).mp h1).2
    have := ((hmem2 f).mp h2).2
    omega
  · intro f
    constructor
    · intro hf
      by_cases h : f.time ≤ b
      · exact Or.inl ((hmem1 f).mpr ⟨hf, h⟩)
      · exact Or.inr ((hmem2 f).mpr ⟨hf, by omega⟩)
    · intro hf
      rcases hf with h | h
      · exact ((hmem1 f).mp h).1
      · exact ((hmem2 f).mp h).1
  · exact fills_split_length fills b
  · intro f hfb hf
    refine ⟨(hmem1 f).mpr ⟨hf, by omega⟩, ?_⟩
    intro hc
    have := ((hmem2 f).mp hc).2
    omega

/-- C9 witness: a fill exactly at the boundary lands on the visible
side and not on the replay side. -/
theorem boundary_split_partition_witness :
    ({ time := 4, side := "BUY", role := "open", qty := 1, price := 2, tag := "a" } : Fill) ∈
        fills_df1 [{ time := 4, side := "BUY", role := "open", qty := 1, price := 2, tag := "a" }] 4 ∧
      ({ time := 4, side := "BUY", role := "open", qty := 1, price := 2, tag := "a" } : Fill) ∉
        fills_remaining [{ time := 4, side := "BUY", role := "open", qty := 1, price := 2, tag := "a" }] 4 :=
  (boundary_split_partition [{ time := 4, side := "BUY", role := "open", qty := 1, price := 2, tag := "a" }] 4).2.2.2
    _ rfl (List.mem_singleton.mpr rfl)

/-- C8: at each replay step the selected trades are exactly those whose
timestamp equals the current candle timestamp (exact equality), and
the chart.update call for the candle precedes every marker call of
that step. -/
theorem replay_step_spec (fillsRem : List Fill) (c : CandleRow) :
    (∀ f, f ∈ trades_at_time fillsRem c.time.wall ↔ f ∈ fillsRem ∧ f.time = c.time.wall) ∧
    replayStep fillsRem c =
      ChartEvent.update c ::
        (trades_at_time fillsRem c.time.wall).map (fun f => ChartEvent.marker (classify f)) ∧
    (∀ e ∈ (trades_at_time fillsRem c.time.wall).map (fun f => ChartEvent.marker (classify f)),
      ∃ f, f ∈ fillsRem ∧ f.time = c.time.wall ∧ e = ChartEvent.marker (classify f)) := by
  have hmem : ∀ f, f ∈ trades_at_time fillsRem c.time.wall ↔
      f ∈ fillsRem ∧ f.time = c.time.wall := by
    intro f; simp [trades_at_time, List.mem_filter]
  refine ⟨hmem, rfl, ?_⟩
  intro e he
  rcases List.mem_map.mp he with ⟨f, hf, rfl⟩
  have := (hmem f).mp hf
  exact ⟨f, this.1, this.2, rfl⟩

/-- C2 witness: two consecutive days with two-row well-formed files
give two tables, four concatenated sorted rows, no housekeeping
columns and naive times. -/
theorem load_range_full_days_witness :
    ∃ tables,
      Realtime.load_date_range fsTwoDays "1m" 0 1 = Except.ok (tables, []) ∧
      tables.length = rangeLen 0 1 ∧
      ((tables.map DayTable.rows).flatten).length = rangeLen 0 1 * 2 ∧
      List.Pairwise (fun a b : CandleRow => a.time.wall ≤ b.time.wall)
        ((tables.map DayTable.rows).flatten) ∧
      (∀ t ∈ tables, ∀ c ∈ housekeepingCols, c ∉ t.cols) ∧
      (∀ t ∈ tables, ∀ r ∈ t.rows, r.time.tz = none) :=
  load_range_full_days fsTwoDays "1m" 0 1 2 (by decide) (by
    intro d hd1 hd2
    have hd : d = 0 ∨ d = 1 := by omega
    rcases hd with rfl | rfl
    · exact ⟨fw0, rfl, rfl, by decide⟩
    · exact ⟨fw1, rfl, rfl, by decide⟩)

/-- C5 witness: files on days 0 and 2, nothing on day 1; the loader
returns the two cleaned tables and warns about day 1. -/
theorem load_range_skips_missing_day_witness :
    Realtime.load_date_range fsGap "1m" 0 2 =
      Except.ok ([cleanFile "1m" fw0, cleanFile "1m" fw1], [1]) :=
  load_range_skips_missing_day fsGap "1m" 0 fw0 fw1 rfl rfl rfl

/-- C8 witness: one remaining fill at time 5 and a candle at time 5;
the step selects the fill and pushes the candle update first. -/
theorem replay_step_spec_witness :
    replayStep [fillA] candleA =
      ChartEvent.update candleA ::
        (trades_at_time [fillA] candleA.time.wall).map (fun f => ChartEvent.marker (classify f)) ∧
    (fillA ∈ trades_at_time [fillA] candleA.time.wall ↔
      fillA ∈ [fillA] ∧ fillA.time = candleA.time.wall) :=
  ⟨(replay_step_spec [fillA] candleA).2.1, (replay_step_spec [fillA] candleA).1 fillA⟩
